import Mathlib

/-!
Verification of the evidence-extraction-and-matching engine of the
PaymentVerifierAI repository (src/payment_verifier.py, src/gmail_client.py,
src/main.py) against its natural-language specification.

The Python code is shallowly embedded: strings are `List Char`/`String`,
regular-expression scans are modelled operationally (leftmost, non-overlapping,
greedy, no backtracking is ever needed for the patterns at hand because every
sub-pattern after the mandatory leading digits is optional or starred),
float values are modelled as exact decimals (`Dec`, mantissa over power of
ten) with rational-number semantics, and the Gmail collaborator is modelled
as an environment describing the outcome of each remote call.  ASCII text is
modelled exactly; the Unicode whitespace characters that the code treats
specially (NBSP, narrow NBSP) are included in the character classes.
-/

/-! ## Character classes (Python `\d`, `\s`, `\w` on the ASCII + NBSP fragment) -/

/-- Python `\s` for the characters reachable in this code base:
ASCII whitespace plus no-break space and narrow no-break space. -/
def pySpace (c : Char) : Bool :=
  c = ' ' || c = '\t' || c = '\n' || c = '\r' || c = '\x0b' || c = '\x0c' ||
  c = '\u00A0' || c = '\u202F'

/-- Python `\w` (ASCII fragment): letters, digits and underscore. -/
def isWordChar (c : Char) : Bool := c.isAlphanum || c = '_'

/-- The class `[\s.,]` used as a digit-group separator in `_parse_amounts`. -/
def isGroupSep (c : Char) : Bool := pySpace c || c = '.' || c = ','

/-! ## Exact decimal numbers standing for the Python floats

`_parse_amounts` feeds its tokens to `float(...)`; every value reachable there
is a decimal literal, represented exactly as `m / 10 ^ e`. -/

/-- An exact non-negative decimal `m / 10 ^ e`, the model of the float values
produced by amount parsing and by the `/verify` form. -/
structure Dec where
  m : Nat
  e : Nat
deriving DecidableEq, Repr

/-- Rational value of a decimal. -/
def Dec.toRat (d : Dec) : ℚ := (d.m : ℚ) / 10 ^ d.e

/-! ## The amount grammar of `PaymentVerifier._parse_amounts`

Pattern: `(?<!\d)(\d{1,3}(?:[\s.,]\d{3})*(?:[.,]\d{1,2})?)(?:\s*(?:FCFA|XOF))?`
scanned by `re.finditer` (leftmost, non-overlapping).  Since everything after
the mandatory `\d{1,3}` is optional or starred, the leftmost match at a
position is obtained purely greedily, with no backtracking. -/

/-- Greedily take at most `n` characters satisfying `p` (`\d{1,3}` etc.). -/
def takeUpTo : Nat → (Char → Bool) → List Char → List Char × List Char
  | 0, _, l => ([], l)
  | _ + 1, _, [] => ([], [])
  | n + 1, p, c :: t =>
    if p c then
      let (a, r) := takeUpTo n p t
      (c :: a, r)
    else ([], c :: t)

/-- Greedy star `(?:[\s.,]\d{3})*`: each iteration is one separator followed
by exactly three digits. -/
def takeGroups : List Char → List Char × List Char
  | sep :: d1 :: d2 :: d3 :: rest =>
    if isGroupSep sep && d1.isDigit && d2.isDigit && d3.isDigit then
      let (g, r) := takeGroups rest
      (sep :: d1 :: d2 :: d3 :: g, r)
    else ([], sep :: d1 :: d2 :: d3 :: rest)
  | s => ([], s)

/-- Greedy optional fraction `(?:[.,]\d{1,2})?`. -/
def takeFrac : List Char → List Char × List Char
  | sep :: d1 :: rest =>
    if (sep = '.' || sep = ',') && d1.isDigit then
      match rest with
      | d2 :: rest2 => if d2.isDigit then ([sep, d1, d2], rest2) else ([sep, d1], rest)
      | [] => ([sep, d1], [])
    else ([], sep :: d1 :: rest)
  | s => ([], s)

/-- Case-insensitive literal prefix: on success returns the rest of the input. -/
def matchCIRest : List Char → List Char → Option (List Char)
  | [], s => some s
  | _ :: _, [] => none
  | p :: pt, c :: ct => if c.toLower = p.toLower then matchCIRest pt ct else none

/-- Optional currency suffix `(?:\s*(?:FCFA|XOF))?` (case-insensitive); the
whole group matches either fully or not at all.  Returns whether it was
consumed (used to decide the `(?<!\d)` look-behind at the next position). -/
def takeCurrency (s : List Char) : Bool × List Char :=
  let t := s.dropWhile pySpace
  match matchCIRest ['f', 'c', 'f', 'a'] t with
  | some r => (true, r)
  | none =>
    match matchCIRest ['x', 'o', 'f'] t with
    | some r => (true, r)
    | none => (false, s)

/-- One attempt of the amount pattern at the current position (the `(?<!\d)`
look-behind is checked by the caller).  Returns the captured group 1, whether
a currency suffix was consumed, and the remaining input. -/
def matchAmountAt (s : List Char) : Option (List Char × Bool × List Char) :=
  match takeUpTo 3 Char.isDigit s with
  | ([], _) => none
  | (d, r1) =>
    let (g, r2) := takeGroups r1
    let (f, r3) := takeFrac r2
    let (cur, r4) := takeCurrency r3
    some (d ++ g ++ f, cur, r4)

/-- `re.finditer` scan: at each position, if the previous character is not a
digit (`(?<!\d)`), attempt the pattern; on success record group 1 and resume
after the match, otherwise advance one character.  `fuel` bounds the number of
steps; every step consumes at least one character, so `s.length` suffices. -/
def scanAmountTokens : Nat → Bool → List Char → List (List Char)
  | 0, _, _ => []
  | _ + 1, _, [] => []
  | fuel + 1, prevDigit, c :: t =>
    if prevDigit then scanAmountTokens fuel c.isDigit t
    else
      match matchAmountAt (c :: t) with
      | some (tok, cur, rest) => tok :: scanAmountTokens fuel (!cur) rest
      | none => scanAmountTokens fuel c.isDigit t

/-- `text.replace("\xa0", " ")`. -/
def cleanText (s : List Char) : List Char :=
  s.map fun c => if c = '\u00A0' then ' ' else c

/-- `token.replace(" ", "").replace(" ", "").replace(",", ".")`:
only the two space characters are stripped; every comma becomes a dot. -/
def normalizeTok (s : List Char) : List Char :=
  (s.filter fun c => !(c = ' ' || c = '\u202F')).map fun c => if c = ',' then '.' else c

/-- Numeric value of a digit string. -/
def digitsToNat (l : List Char) : Nat :=
  l.foldl (fun acc c => 10 * acc + (c.toNat - 48)) 0

/-- Python `float(token)` on the normalized tokens: succeeds exactly on
`digits` or `digits.digits` (an unconsumed group separator such as a second
dot or an embedded tab makes it raise `ValueError`). -/
def parseFloatTok (s : List Char) : Option Dec :=
  let intPart := s.takeWhile Char.isDigit
  let rest := s.dropWhile Char.isDigit
  if intPart = [] then none
  else
    match rest with
    | [] => some ⟨digitsToNat intPart, 0⟩
    | '.' :: frac =>
      if frac.all Char.isDigit then
        some ⟨digitsToNat intPart * 10 ^ frac.length + digitsToNat frac, frac.length⟩
      else none
    | _ => none

/-- `PaymentVerifier._parse_amounts` (src/payment_verifier.py:47-62). -/
def _parse_amounts (text : String) : List Dec :=
  let s := cleanText text.data
  (scanAmountTokens (s.length + 1) false s).filterMap fun tok =>
    parseFloatTok (normalizeTok tok)

/-- The rational values extracted by `_parse_amounts`. -/
def parse_amount_values (text : String) : List ℚ :=
  (_parse_amounts text).map Dec.toRat

/-! ## `PaymentVerifier._parse_tx_ids`

Pattern `\b([A-Z0-9]{6,20})\b` with `re.IGNORECASE`: because both ends of a
match must sit on a word boundary and every matched character is a word
character, the matches are exactly the maximal runs of word characters that
consist only of alphanumerics and have length 6 to 20 (a run containing `_`,
or longer than 20, yields no match at all). -/

/-- Maximal runs of word characters of a text, in order (`acc` holds the
current run reversed). -/
def wordRunsAux : List Char → List Char → List (List Char)
  | acc, [] => if acc = [] then [] else [acc.reverse]
  | acc, c :: t =>
    if isWordChar c then wordRunsAux (c :: acc) t
    else if acc = [] then wordRunsAux [] t
    else acc.reverse :: wordRunsAux [] t

def wordRuns (s : List Char) : List (List Char) := wordRunsAux [] s

/-- A word-character run that the pattern `\b([A-Z0-9]{6,20})\b` accepts. -/
def isTxToken (w : List Char) : Bool :=
  w.all Char.isAlphanum && decide (6 ≤ w.length) && decide (w.length ≤ 20)

/-- The tokens of `re.findall(r"\b([A-Z0-9]{6,20})\b", text, re.IGNORECASE)`,
in order of appearance, duplicates retained. -/
def rawTxTokens (text : String) : List String :=
  ((wordRuns text.data).filter isTxToken).map fun l => ⟨l⟩

/-- `list(dict.fromkeys(ids))`: stable deduplication keeping first occurrences. -/
def dedupKeepFirst (seen : List String) : List String → List String
  | [] => []
  | x :: t => if x ∈ seen then dedupKeepFirst seen t
              else x :: dedupKeepFirst (x :: seen) t

/-- `PaymentVerifier._parse_tx_ids` (src/payment_verifier.py:64-67). -/
def _parse_tx_ids (text : String) : List String :=
  dedupKeepFirst [] (rawTxTokens text)

/-! ## `PaymentVerifier._parse_choice`

`re.search(r"\bvalider\b", ..., re.IGNORECASE)` then the same for `refuser`.
Both literals begin and end with word characters, so `\b` demands a non-word
character (or the text edge) on each side. -/

/-- Non-word character or end of text right after a match. -/
def boundaryOk : List Char → Bool
  | [] => true
  | c :: _ => !(isWordChar c)

/-- Does `pat` (a word made of word characters) match case-insensitively at
the head of `s` with a word boundary after it? -/
def wordHitAt (pat s : List Char) : Bool :=
  match matchCIRest pat s with
  | none => false
  | some rest => boundaryOk rest

/-- `re.search(r"\b<pat>\b", s, re.IGNORECASE)` scan; `prevOk` records
whether the previous character allows a word boundary before the match. -/
def containsWordAux (pat : List Char) : Bool → List Char → Bool
  | prevOk, [] => prevOk && wordHitAt pat []
  | prevOk, c :: t => (prevOk && wordHitAt pat (c :: t)) || containsWordAux pat (!isWordChar c) t

def containsWordCI (pat s : List Char) : Bool := containsWordAux pat true s

/-- The literal word of `\bvalider\b`. -/
def validerChars : List Char := ['v', 'a', 'l', 'i', 'd', 'e', 'r']

/-- The literal word of `\brefuser\b`. -/
def refuserChars : List Char := ['r', 'e', 'f', 'u', 's', 'e', 'r']

/-- `PaymentVerifier._parse_choice` (src/payment_verifier.py:69-74). -/
def _parse_choice (text : String) : Option String :=
  if containsWordCI validerChars text.data then some "valider"
  else if containsWordCI refuserChars text.data then some "refuser"
  else none

/-! ## Case-insensitive substring search

`re.search(re.escape(pat), content, re.IGNORECASE)` with a non-empty `pat`
is containment of `pat` in `content` up to ASCII case. -/

def listHasSub : List Char → List Char → Bool
  | [], pat => pat.isEmpty
  | c :: t, pat => pat.isPrefixOf (c :: t) || listHasSub t pat

def containsCI (hay pat : String) : Bool :=
  listHasSub (hay.data.map Char.toLower) (pat.data.map Char.toLower)

/-! ## Data model (src/payment_verifier.py:18-33) -/

structure Evidence where
  user_hint : Option String
  amount : Option Dec
  tx_id : Option String
  choice : Option String
  raw_text : String
deriving DecidableEq, Repr

structure VerificationResult where
  decision : String
  reason : String
  matched_message_id : Option String
  matched_snippet : Option String
deriving DecidableEq, Repr

/-- A fetched Gmail message as the verifier consumes it: its identifier,
`internalDate` in milliseconds, its snippet, and the text extracted from its
payload by `GmailClient.extract_text_and_attachments`. -/
structure GMessage where
  id : String
  internalDate : Int
  snippet : String
  payloadText : String
deriving DecidableEq, Repr

/-! ## The Gmail collaborator boundary (src/gmail_client.py) -/

/-- An exception escaping a Gmail API call. -/
inductive GmailError where
  | httpError
  | other
deriving DecidableEq, Repr

/-- Outcome of the raw `users().messages().list(...).execute()` call. -/
inductive ListOutcome where
  | ok (stubs : List String)
  | httpErr
  | otherErr
deriving Repr

/-- `GmailClient.list_messages` (src/gmail_client.py:59-65): an `HttpError`
raised by the API call is caught, logged, and turned into an empty list;
any other exception propagates. -/
def list_messages (query : String) (o : ListOutcome) (maxResults : Nat) :
    Except GmailError (List String) :=
  match query, o with
  | _, .ok stubs => .ok (stubs.take maxResults)
  | _, .httpErr => .ok []
  | _, .otherErr => .error .other

/-- Collaborator behaviour during one attempt of the scan sequence:
the listing outcome and the outcome of each `get_message` fetch. -/
structure MailEnv where
  listOutcome : ListOutcome
  fetch : String → Except GmailError GMessage

/-! ## Matching, time window, verification (src/payment_verifier.py:99-150) -/

/-- `config.get("verification", {}).get(...)` / `config.get("gmail", {})`:
the recognized configuration surface, each key optional with its default.
`max_results` appears in the specified configuration surface; the code never
reads it (kept in the model to state that fact). -/
structure RawConfig where
  verification_amount_tolerance_pct : Option Dec
  verification_time_window_hours : Option Int
  gmail_watch_query : Option String
  max_results : Option Nat
deriving Repr

/-- `self.amount_tolerance_pct`, default 1.0 (src/payment_verifier.py:39-41). -/
def amountTolerancePct (cfg : RawConfig) : Dec :=
  cfg.verification_amount_tolerance_pct.getD ⟨1, 0⟩

/-- `self.time_window_hours`, default 168 (src/payment_verifier.py:42-44). -/
def timeWindowHours (cfg : RawConfig) : Int :=
  cfg.verification_time_window_hours.getD 168

/-- `PaymentVerifier._within_amount_tolerance` (src/payment_verifier.py:99-103):
`abs(a - b) <= (tol_pct / 100) * max(a, b)`, computed here on exact decimals
by clearing denominators; `within_amount_tolerance_iff_rat` below proves it
equal to the rational-number inequality. -/
def _within_amount_tolerance (tolPct : Dec) (a b : Dec) : Bool :=
  let a' := a.m * 10 ^ b.e
  let b' := b.m * 10 ^ a.e
  decide ((max a' b' - min a' b') * (10 ^ tolPct.e * 100) ≤ tolPct.m * max a' b')

/-- `PaymentVerifier._within_time_window` (src/payment_verifier.py:105-108):
the message timestamp (ms since epoch, UTC) must be at least "now minus the
window"; `within_time_window_iff_seconds` below restates it over the
seconds-valued comparison the source performs. -/
def _within_time_window (time_window_hours nowMs msgInternalDateMs : Int) : Bool :=
  decide (nowMs - time_window_hours * 3600000 ≤ msgInternalDateMs)

/-- `content = f"{snippet}\n{payload_text}"` (src/payment_verifier.py:111-113). -/
def msgContent (msg : GMessage) : String :=
  msg.snippet ++ "\n" ++ msg.payloadText

/-- Check 1 of `_message_matches`: `if evidence.tx_id:` (truthy, so a present
but empty identifier is skipped) then case-insensitive substring search. -/
def txCheck (content : String) (ev : Evidence) : Bool :=
  match ev.tx_id with
  | none => false
  | some t => decide (t ≠ "") && containsCI content t

/-- Check 2 of `_message_matches`: `if evidence.amount is not None:` then some
amount parsed from the candidate text is within tolerance of the claim. -/
def amountCheck (tolPct : Dec) (content : String) (ev : Evidence) : Bool :=
  match ev.amount with
  | none => false
  | some a => (_parse_amounts content).any fun amt => _within_amount_tolerance tolPct amt a

/-- Check 3 of `_message_matches`: `if evidence.user_hint:` (truthy) then
case-insensitive substring search. -/
def hintCheck (content : String) (ev : Evidence) : Bool :=
  match ev.user_hint with
  | none => false
  | some h => decide (h ≠ "") && containsCI content h

/-- `PaymentVerifier._message_matches` (src/payment_verifier.py:110-126):
three ordered short-circuiting checks; on success the message snippet is
returned alongside. -/
def _message_matches (tolPct : Dec) (msg : GMessage) (ev : Evidence) :
    Bool × Option String :=
  if txCheck (msgContent msg) ev then (true, some msg.snippet)
  else if amountCheck tolPct (msgContent msg) ev then (true, some msg.snippet)
  else if hintCheck (msgContent msg) ev then (true, some msg.snippet)
  else (false, none)

/-- Which of the three ordered checks of `_message_matches` fires first. -/
inductive MatchPath where
  | txId
  | amount
  | hint
  | noMatch
deriving DecidableEq, Repr

/-- The check that decides `_message_matches` (same ordered conditions). -/
def matchPath (tolPct : Dec) (msg : GMessage) (ev : Evidence) : MatchPath :=
  if txCheck (msgContent msg) ev then .txId
  else if amountCheck tolPct (msgContent msg) ev then .amount
  else if hintCheck (msgContent msg) ev then .hint
  else .noMatch

/-- The `REFUSER` result built when the candidate list is exhausted
(src/payment_verifier.py:145-150). -/
def refusedResult : VerificationResult :=
  { decision := "REFUSER"
    reason := "Aucune preuve correspondante dans la fenêtre temporelle"
    matched_message_id := none
    matched_snippet := none }

/-- The `VALIDER` result built for the first matching message
(src/payment_verifier.py:139-144). -/
def validerResult (msg : GMessage) : VerificationResult :=
  { decision := "VALIDER"
    reason := "Correspondance trouvée dans Gmail"
    matched_message_id := some msg.id
    matched_snippet := some msg.snippet }

/-- The `for m in messages:` loop of `verify_against_inbox`
(src/payment_verifier.py:133-150): fetch each stub, skip messages outside the
time window before matching, return on the first match, `REFUSER` when the
list is exhausted; a fetch exception aborts the sequence. -/
def scanCandidates (tolPct : Dec) (windowHours : Int)
    (fetch : String → Except GmailError GMessage) (nowMs : Int) (ev : Evidence) :
    List String → Except GmailError VerificationResult
  | [] => .ok refusedResult
  | mid :: rest =>
    match fetch mid with
    | .error e => .error e
    | .ok msg =>
      if _within_time_window windowHours nowMs msg.internalDate then
        match _message_matches tolPct msg ev with
        | (true, snip) =>
          .ok { decision := "VALIDER"
                reason := "Correspondance trouvée dans Gmail"
                matched_message_id := some msg.id
                matched_snippet := snip }
        | (false, _) => scanCandidates tolPct windowHours fetch nowMs ev rest
      else scanCandidates tolPct windowHours fetch nowMs ev rest

/-- One attempt of the whole scan sequence of `verify_against_inbox`
(src/payment_verifier.py:128-150): list with the configured query and the
hard-coded `max_results=50`, then scan. -/
def verifyOnce (cfg : RawConfig) (env : MailEnv) (nowMs : Int) (ev : Evidence) :
    Except GmailError VerificationResult :=
  match list_messages (cfg.gmail_watch_query.getD "in:inbox newer_than:7d")
      env.listOutcome 50 with
  | .error e => .error e
  | .ok stubs => scanCandidates (amountTolerancePct cfg) (timeWindowHours cfg)
      env.fetch nowMs ev stubs

/-- The `tenacity.RetryError` raised after `stop_after_attempt(3)` exhausts
its attempts (no `reraise`), wrapping the exception of the last attempt. -/
inductive VerifyFailure where
  | retryError (last : GmailError)
deriving DecidableEq, Repr

/-- `PaymentVerifier.verify_against_inbox` under its
`@retry(stop=stop_after_attempt(3), ...)` decorator: up to three attempts of
the scan sequence (`envs k` is the collaborator behaviour during attempt `k`);
an exception in an attempt triggers the next one, and after the third failure
a `RetryError` wrapping the last exception propagates. -/
def verify_against_inbox (cfg : RawConfig) (envs : Nat → MailEnv) (nowMs : Int)
    (ev : Evidence) : Except VerifyFailure VerificationResult :=
  match verifyOnce cfg (envs 0) nowMs ev with
  | .ok r => .ok r
  | .error _ =>
    match verifyOnce cfg (envs 1) nowMs ev with
    | .ok r => .ok r
    | .error _ =>
      match verifyOnce cfg (envs 2) nowMs ev with
      | .ok r => .ok r
      | .error e => .error (.retryError e)

/-! ## Bridge lemmas: the integer computations equal the source formulas -/

/-- The decimal-cleared tolerance test is exactly
`abs(a - b) <= (tolerance_pct / 100) * max(a, b)` over the rational values. -/
theorem within_amount_tolerance_iff_rat (tolPct a b : Dec) :
    _within_amount_tolerance tolPct a b = true ↔
      |a.toRat - b.toRat| ≤ tolPct.toRat / 100 * max a.toRat b.toRat := by
  unfold _within_amount_tolerance Dec.toRat
  rw [decide_eq_true_eq]
  set A := a.m * 10 ^ b.e with hA
  set B := b.m * 10 ^ a.e with hB
  have hD : (0 : ℚ) < 10 ^ (a.e + b.e) := by positivity
  have ha : (a.m : ℚ) / 10 ^ a.e = (A : ℚ) / 10 ^ (a.e + b.e) := by
    rw [hA]
    push_cast [pow_add]
    rw [div_eq_div_iff (by positivity) (by positivity)]
    ring
  have hb : (b.m : ℚ) / 10 ^ b.e = (B : ℚ) / 10 ^ (a.e + b.e) := by
    rw [hB]
    push_cast [pow_add]
    rw [div_eq_div_iff (by positivity) (by positivity)]
    ring
  have habs : |(A : ℚ) - B| = ((max A B - min A B : ℕ) : ℚ) := by
    rcases le_total A B with h | h
    · have h' : (A : ℚ) ≤ B := by exact_mod_cast h
      rw [abs_sub_comm, abs_of_nonneg (sub_nonneg.2 h'), max_eq_right h, min_eq_left h,
        Nat.cast_sub h]
    · have h' : (B : ℚ) ≤ A := by exact_mod_cast h
      rw [abs_of_nonneg (sub_nonneg.2 h'), max_eq_left h, min_eq_right h, Nat.cast_sub h]
  rw [ha, hb, div_sub_div_same, abs_div, abs_of_pos hD,
    max_div_div_right hD.le, div_div, ← mul_div_assoc,
    div_le_div_iff_of_pos_right hD, div_mul_eq_mul_div,
    le_div_iff₀ (by positivity), habs, ← Nat.cast_max]
  norm_cast

/-- The millisecond comparison is exactly the seconds-valued comparison
performed on the parsed datetimes. -/
theorem within_time_window_iff_seconds (wh nowMs ms : Int) :
    _within_time_window wh nowMs ms = true ↔
      (nowMs : ℚ) / 1000 - wh * 3600 ≤ (ms : ℚ) / 1000 := by
  unfold _within_time_window
  rw [decide_eq_true_eq]
  constructor
  · intro h
    have h' : ((nowMs - wh * 3600000 : ℤ) : ℚ) ≤ (ms : ℚ) := by exact_mod_cast h
    push_cast at h'
    linarith
  · intro h
    have h' : ((nowMs - wh * 3600000 : ℤ) : ℚ) ≤ (ms : ℚ) := by push_cast; linarith
    exact_mod_cast h'

/-! ## Structure of `_message_matches` and of the candidate scan -/

theorem message_matches_of_true (tolPct : Dec) (msg : GMessage) (ev : Evidence)
    (h : (_message_matches tolPct msg ev).1 = true) :
    _message_matches tolPct msg ev = (true, some msg.snippet) := by
  unfold _message_matches at h ⊢
  split_ifs at h ⊢
  all_goals simp_all

theorem message_matches_of_false (tolPct : Dec) (msg : GMessage) (ev : Evidence)
    (h : (_message_matches tolPct msg ev).1 = false) :
    _message_matches tolPct msg ev = (false, none) := by
  unfold _message_matches at h ⊢
  split_ifs at h ⊢
  all_goals simp_all

/-- Every successful verification call returns either the fixed `REFUSER`
result or the `VALIDER` result of some fetched message. -/
theorem scanCandidates_ok_shape (tolPct : Dec) (wh : Int)
    (fetch : String → Except GmailError GMessage) (nowMs : Int) (ev : Evidence) :
    ∀ stubs r, scanCandidates tolPct wh fetch nowMs ev stubs = .ok r →
      r = refusedResult ∨ ∃ msg, r = validerResult msg := by
  intro stubs
  induction stubs with
  | nil =>
    intro r h
    left
    simpa [scanCandidates] using h.symm
  | cons mid rest ih =>
    intro r h
    simp only [scanCandidates] at h
    cases hf : fetch mid with
    | error e => rw [hf] at h; simp at h
    | ok msg =>
      rw [hf] at h
      dsimp only at h
      by_cases hw : _within_time_window wh nowMs msg.internalDate = true
      · rw [if_pos hw] at h
        cases hm : (_message_matches tolPct msg ev).1 with
        | true =>
          rw [message_matches_of_true tolPct msg ev hm] at h
          right
          exact ⟨msg, by simpa [validerResult] using h.symm⟩
        | false =>
          rw [message_matches_of_false tolPct msg ev hm] at h
          exact ih r h
      · rw [if_neg hw] at h
        exact ih r h

theorem verifyOnce_ok_shape {cfg : RawConfig} {env : MailEnv} {nowMs : Int}
    {ev : Evidence} {r : VerificationResult}
    (h : verifyOnce cfg env nowMs ev = .ok r) :
    r = refusedResult ∨ ∃ msg, r = validerResult msg := by
  unfold verifyOnce at h
  cases hl : list_messages (cfg.gmail_watch_query.getD "in:inbox newer_than:7d")
      env.listOutcome 50 with
  | error e => rw [hl] at h; simp at h
  | ok stubs =>
    rw [hl] at h
    exact scanCandidates_ok_shape _ _ _ _ _ stubs r h

theorem verify_ok_shape {cfg : RawConfig} {envs : Nat → MailEnv} {nowMs : Int}
    {ev : Evidence} {r : VerificationResult}
    (h : verify_against_inbox cfg envs nowMs ev = .ok r) :
    r = refusedResult ∨ ∃ msg, r = validerResult msg := by
  unfold verify_against_inbox at h
  cases h0 : verifyOnce cfg (envs 0) nowMs ev with
  | ok r0 =>
    rw [h0] at h
    simp only [Except.ok.injEq] at h
    exact h ▸ verifyOnce_ok_shape h0
  | error e0 =>
    rw [h0] at h
    cases h1 : verifyOnce cfg (envs 1) nowMs ev with
    | ok r1 =>
      rw [h1] at h
      simp only [Except.ok.injEq] at h
      exact h ▸ verifyOnce_ok_shape h1
    | error e1 =>
      rw [h1] at h
      cases h2 : verifyOnce cfg (envs 2) nowMs ev with
      | ok r2 =>
        rw [h2] at h
        simp only [Except.ok.injEq] at h
        exact h ▸ verifyOnce_ok_shape h2
      | error e2 => rw [h2] at h; simp at h

/-- A candidate message is admitted by the time window and matched by
`_message_matches` (the condition on which the scan loop stops). -/
def candidateHit (tolPct : Dec) (windowHours : Int) (nowMs : Int) (ev : Evidence)
    (msg : GMessage) : Bool :=
  _within_time_window windowHours nowMs msg.internalDate &&
    (_message_matches tolPct msg ev).1

/-! ## Concrete fixtures used by counterexamples and witnesses -/

/-- A configuration with every recognized key absent (all defaults). -/
def defaultCfg : RawConfig := ⟨none, none, none, none⟩

/-- Evidence carrying only a transaction identifier. -/
def txEvidence : Evidence := ⟨none, none, some "TX123ABC", none, "TX123ABC"⟩

/-- A fetched message that does not corroborate `txEvidence`. -/
def plainMsg : GMessage := ⟨"m1", 1700000000000, "first snippet", "nothing relevant"⟩

/-- A fetched message whose payload contains the identifier of `txEvidence`. -/
def hitMsg : GMessage := ⟨"m2", 1700000000000, "second snippet", "ref TX123ABC ok"⟩

/-- Fetch behaviour returning `plainMsg` for "m1" and `hitMsg` otherwise. -/
def twoMsgFetch : String → GMessage :=
  fun mid => if mid = "m1" then plainMsg else hitMsg

/-! ## C1 — collaborator failures during the scan -/

/-- C1, counterexample.  The claim says an exception raised while listing
messages in every attempt makes the last exception propagate and never
yields a `REFUSER` result.  In the code, `GmailClient.list_messages` catches
`HttpError` (src/gmail_client.py:63-65) and returns an empty list, so the
very first attempt succeeds with the candidate set empty and the call
returns the `REFUSER` no-evidence result. -/
theorem C1_counterexample :
    verify_against_inbox defaultCfg
        (fun _ => ⟨.httpErr, fun _ => .error .httpError⟩) 1700000000000 txEvidence
      = .ok refusedResult ∧
    refusedResult.decision = "REFUSER" :=
  ⟨rfl, rfl⟩

/-- C1, amended.  Only exceptions that escape the Gmail client reach the
retry policy: when every one of the three attempts of the scan sequence
raises such an exception (e.g. a fetch failure, or a non-`HttpError` listing
failure), `verify_against_inbox` raises a `RetryError` wrapping the last
attempt's exception and returns no `VerificationResult` at all; an
`HttpError` raised inside the listing call is caught there, yields an empty
candidate list, and so produces a `REFUSER` result instead. -/
theorem C1_failure_propagation (cfg : RawConfig) (envs : Nat → MailEnv)
    (nowMs : Int) (ev : Evidence) (e0 e1 e2 : GmailError)
    (h0 : verifyOnce cfg (envs 0) nowMs ev = .error e0)
    (h1 : verifyOnce cfg (envs 1) nowMs ev = .error e1)
    (h2 : verifyOnce cfg (envs 2) nowMs ev = .error e2) :
    verify_against_inbox cfg envs nowMs ev = .error (.retryError e2) := by
  unfold verify_against_inbox
  rw [h0, h1, h2]

/-- C1, witness: three attempts with a listing failure that is not an
`HttpError`; the `RetryError` wrapping the last exception propagates. -/
theorem C1_failure_propagation_witness :
    verify_against_inbox defaultCfg
        (fun _ => ⟨.otherErr, fun _ => .error .other⟩) 1700000000000 txEvidence
      = .error (.retryError .other) :=
  C1_failure_propagation defaultCfg _ 1700000000000 txEvidence .other .other .other
    rfl rfl rfl

/-! ## C2 — the result-shape invariant -/

/-- C2: every `VerificationResult` returned by `verify_against_inbox` has
`matched_message_id`/`matched_snippet` populated exactly when the decision is
`VALIDER`, and both absent when it is `REFUSER`. -/
theorem C2_result_invariant (cfg : RawConfig) (envs : Nat → MailEnv)
    (nowMs : Int) (ev : Evidence) (r : VerificationResult)
    (h : verify_against_inbox cfg envs nowMs ev = .ok r) :
    (r.decision = "VALIDER" ↔
      r.matched_message_id.isSome = true ∧ r.matched_snippet.isSome = true) ∧
    (r.decision = "REFUSER" →
      r.matched_message_id = none ∧ r.matched_snippet = none) := by
  rcases verify_ok_shape h with rfl | ⟨msg, rfl⟩
  · refine ⟨⟨fun hd => absurd hd (by decide), fun hp => ?_⟩, fun _ => ⟨rfl, rfl⟩⟩
    rcases hp with ⟨hp1, _⟩
    simp [refusedResult] at hp1
  · exact ⟨⟨fun _ => ⟨rfl, rfl⟩, fun _ => rfl⟩, fun hd => by simp [validerResult] at hd⟩

/-- C2, witness: an empty mailbox gives the `REFUSER` result, for which the
invariant is checked concretely. -/
theorem C2_result_invariant_witness :
    (refusedResult.decision = "VALIDER" ↔
      refusedResult.matched_message_id.isSome = true ∧
      refusedResult.matched_snippet.isSome = true) ∧
    (refusedResult.decision = "REFUSER" →
      refusedResult.matched_message_id = none ∧ refusedResult.matched_snippet = none) :=
  C2_result_invariant defaultCfg (fun _ => ⟨.ok [], fun _ => .error .other⟩)
    1700000000000 txEvidence refusedResult rfl

/-! ## C5 — the candidate cap -/

/-- A configuration that sets the `max_results` key to 1. -/
def maxOneCfg : RawConfig := ⟨none, none, none, some 1⟩

/-- C5, counterexample.  With `max_results` configured to 1, the claim says
at most one candidate is fetched; but `verify_against_inbox` passes the
hard-coded literal 50 (src/payment_verifier.py:131), so the scan reaches and
matches the second listed message — which a fetch bounded by 1 could never
have seen, the first candidate not matching. -/
theorem C5_counterexample :
    maxOneCfg.max_results = some 1 ∧
    candidateHit (amountTolerancePct maxOneCfg) (timeWindowHours maxOneCfg)
      1700000000000 txEvidence plainMsg = false ∧
    verify_against_inbox maxOneCfg
        (fun _ => ⟨.ok ["m1", "m2"], fun mid => .ok (twoMsgFetch mid)⟩)
        1700000000000 txEvidence
      = .ok (validerResult hitMsg) :=
  ⟨rfl, by decide, rfl⟩

/-- C5, amended: the number of candidates requested from the mail
collaborator is capped by the hard-coded constant 50; the `max_results`
configuration key is never read, so changing it cannot affect the call. -/
theorem C5_hardcoded_cap (cfg : RawConfig) (n : Option Nat) (envs : Nat → MailEnv)
    (nowMs : Int) (ev : Evidence) (q : String) (stubs : List String) :
    verify_against_inbox { cfg with max_results := n } envs nowMs ev
        = verify_against_inbox cfg envs nowMs ev ∧
    list_messages q (.ok stubs) 50 = .ok (stubs.take 50) ∧
    (stubs.take 50).length ≤ 50 := by
  refine ⟨rfl, rfl, ?_⟩
  simp [List.length_take]

/-! ## C7 — matching precedence -/

/-- C7: when the identifier check fails and some amount parsed from the
candidate text is within tolerance, the message matches through the amount
path — whatever the hint check would say, since the later check is never
reached. -/
theorem C7_matching_precedence (tolPct : Dec) (msg : GMessage) (ev : Evidence)
    (htx : txCheck (msgContent msg) ev = false)
    (ham : amountCheck tolPct (msgContent msg) ev = true) :
    _message_matches tolPct msg ev = (true, some msg.snippet) ∧
    matchPath tolPct msg ev = .amount := by
  unfold _message_matches matchPath
  rw [htx, ham]
  simp

/-- A candidate whose text has no identifier match but carries both a
tolerable amount and the user hint. -/
def amountHintMsg : GMessage := ⟨"m7", 1700000000000, "Paid 50,00 FCFA to vendor42", ""⟩

/-- Evidence claiming amount 50 with hint "vendor42" and an identifier that
the candidate text does not contain. -/
def amountHintEvidence : Evidence :=
  ⟨some "vendor42", some ⟨50, 0⟩, some "TXMISSING9", none, "TXMISSING9 50 vendor42"⟩

/-- C7, witness: the candidate also contains the hint, yet matches via the
amount path. -/
theorem C7_matching_precedence_witness :
    (_message_matches ⟨1, 0⟩ amountHintMsg amountHintEvidence
        = (true, some amountHintMsg.snippet) ∧
      matchPath ⟨1, 0⟩ amountHintMsg amountHintEvidence = .amount) ∧
    hintCheck (msgContent amountHintMsg) amountHintEvidence = true :=
  ⟨C7_matching_precedence ⟨1, 0⟩ amountHintMsg amountHintEvidence
      (by decide) (by decide),
    by decide⟩

/-! ## C10 — evidence with no populated field -/

theorem message_matches_none_evidence (tolPct : Dec) (msg : GMessage) (ev : Evidence)
    (htx : ev.tx_id = none) (ham : ev.amount = none) (hh : ev.user_hint = none) :
    _message_matches tolPct msg ev = (false, none) := by
  unfold _message_matches txCheck amountCheck hintCheck
  rw [htx, ham, hh]
  rfl

/-- C10: an `Evidence` with `tx_id`, `amount` and `user_hint` all absent (as
built by the `/verify` endpoint from an empty form) can match no candidate,
so the verification returns `REFUSER` whatever the mailbox holds. -/
theorem C10_no_evidence_refuses (cfg : RawConfig) (stubs : List String)
    (msgF : String → GMessage) (nowMs : Int) (ev : Evidence)
    (htx : ev.tx_id = none) (ham : ev.amount = none) (hh : ev.user_hint = none) :
    verify_against_inbox cfg (fun _ => ⟨.ok stubs, fun mid => .ok (msgF mid)⟩)
        nowMs ev
      = .ok refusedResult := by
  have hscan : ∀ l, scanCandidates (amountTolerancePct cfg) (timeWindowHours cfg)
      (fun mid => .ok (msgF mid)) nowMs ev l = .ok refusedResult := by
    intro l
    induction l with
    | nil => rfl
    | cons mid rest ih =>
      simp only [scanCandidates]
      rw [message_matches_none_evidence _ _ _ htx ham hh]
      dsimp only
      split <;> exact ih
  unfold verify_against_inbox verifyOnce list_messages
  simp [hscan]

/-- A richly populated mailbox message for the C10 witness. -/
def richMsg : GMessage :=
  ⟨"m9", 1700000000000, "valider 50 FCFA", "TX123ABC utilisateur: bob valider"⟩

/-- C10, witness: an all-absent evidence against a mailbox whose message
carries amounts, identifiers, hints and choice words still refuses. -/
theorem C10_no_evidence_refuses_witness :
    verify_against_inbox defaultCfg
        (fun _ => ⟨.ok ["m9"], fun mid => .ok ((fun _ => richMsg) mid)⟩)
        1700000000000 ⟨none, none, none, none, ""⟩
      = .ok refusedResult :=
  C10_no_evidence_refuses defaultCfg ["m9"] (fun _ => richMsg) 1700000000000
    ⟨none, none, none, none, ""⟩ rfl rfl rfl

/-! ## C3 — first-match scan semantics -/

/-- With a fetch that never raises, the scan always returns a result. -/
theorem scanCandidates_total (tolPct : Dec) (wh : Int) (msgF : String → GMessage)
    (nowMs : Int) (ev : Evidence) :
    ∀ stubs, ∃ r, scanCandidates tolPct wh (fun mid => .ok (msgF mid)) nowMs ev stubs
      = .ok r := by
  intro stubs
  induction stubs with
  | nil => exact ⟨refusedResult, rfl⟩
  | cons mid rest ih =>
    simp only [scanCandidates]
    by_cases hw : _within_time_window wh nowMs (msgF mid).internalDate = true
    · rw [if_pos hw]
      cases hm : (_message_matches tolPct (msgF mid) ev).1 with
      | true =>
        rw [message_matches_of_true tolPct (msgF mid) ev hm]
        exact ⟨validerResult (msgF mid), rfl⟩
      | false =>
        rw [message_matches_of_false tolPct (msgF mid) ev hm]
        exact ih
    · rw [if_neg hw]
      exact ih

/-- A scan over candidates none of which hits ends in the fixed `REFUSER`
result. -/
theorem scanCandidates_no_hit (tolPct : Dec) (wh : Int) (msgF : String → GMessage)
    (nowMs : Int) (ev : Evidence) :
    ∀ stubs, (∀ mid ∈ stubs, candidateHit tolPct wh nowMs ev (msgF mid) = false) →
      scanCandidates tolPct wh (fun mid => .ok (msgF mid)) nowMs ev stubs
        = .ok refusedResult := by
  intro stubs
  induction stubs with
  | nil => intro; rfl
  | cons mid rest ih =>
    intro hall
    have hmid := hall mid (List.mem_cons_self mid rest)
    simp only [scanCandidates]
    by_cases hw : _within_time_window wh nowMs (msgF mid).internalDate = true
    · rw [if_pos hw]
      have hm : (_message_matches tolPct (msgF mid) ev).1 = false := by
        unfold candidateHit at hmid
        rw [hw] at hmid
        simpa using hmid
      rw [message_matches_of_false tolPct (msgF mid) ev hm]
      exact ih fun x hx => hall x (List.mem_cons_of_mem mid hx)
    · rw [if_neg hw]
      exact ih fun x hx => hall x (List.mem_cons_of_mem mid hx)

/-- The scan stops at the first hitting candidate and returns its `VALIDER`
result. -/
theorem scanCandidates_first_hit (tolPct : Dec) (wh : Int) (msgF : String → GMessage)
    (nowMs : Int) (ev : Evidence) :
    ∀ pre mid post, (∀ x ∈ pre, candidateHit tolPct wh nowMs ev (msgF x) = false) →
      candidateHit tolPct wh nowMs ev (msgF mid) = true →
      scanCandidates tolPct wh (fun x => .ok (msgF x)) nowMs ev (pre ++ mid :: post)
        = .ok (validerResult (msgF mid)) := by
  intro pre
  induction pre with
  | nil =>
    intro mid post _ hhit
    have hw : _within_time_window wh nowMs (msgF mid).internalDate = true := by
      unfold candidateHit at hhit
      exact (Bool.and_eq_true_iff.1 hhit).1
    have hm : (_message_matches tolPct (msgF mid) ev).1 = true := by
      unfold candidateHit at hhit
      exact (Bool.and_eq_true_iff.1 hhit).2
    simp only [List.nil_append, scanCandidates]
    rw [if_pos hw, message_matches_of_true tolPct (msgF mid) ev hm]
    rfl
  | cons x pre ih =>
    intro mid post hpre hhit
    have hx := hpre x (List.mem_cons_self x pre)
    simp only [List.cons_append, scanCandidates]
    by_cases hw : _within_time_window wh nowMs (msgF x).internalDate = true
    · rw [if_pos hw]
      have hm : (_message_matches tolPct (msgF x) ev).1 = false := by
        unfold candidateHit at hx
        rw [hw] at hx
        simpa using hx
      rw [message_matches_of_false tolPct (msgF x) ev hm]
      exact ih mid post (fun y hy => hpre y (List.mem_cons_of_mem x hy)) hhit
    · rw [if_neg hw]
      exact ih mid post (fun y hy => hpre y (List.mem_cons_of_mem x hy)) hhit

/-- C3: over the candidate sequence handed back by the mail collaborator,
the verification returns the first admitted-and-matching candidate's
`VALIDER` result — its identifier and snippet — and the fixed `REFUSER`
result with both fields absent when no candidate hits. -/
theorem C3_first_match (cfg : RawConfig) (msgF : String → GMessage) (nowMs : Int)
    (ev : Evidence) :
    (∀ stubs : List String, ∃ r,
      scanCandidates (amountTolerancePct cfg) (timeWindowHours cfg)
          (fun mid => .ok (msgF mid)) nowMs ev (stubs.take 50) = .ok r ∧
      verify_against_inbox cfg (fun _ => ⟨.ok stubs, fun mid => .ok (msgF mid)⟩)
          nowMs ev = .ok r) ∧
    (∀ stubs, (∀ mid ∈ stubs,
        candidateHit (amountTolerancePct cfg) (timeWindowHours cfg) nowMs ev (msgF mid)
          = false) →
      scanCandidates (amountTolerancePct cfg) (timeWindowHours cfg)
          (fun mid => .ok (msgF mid)) nowMs ev stubs
        = .ok refusedResult) ∧
    (∀ pre mid post,
      (∀ x ∈ pre, candidateHit (amountTolerancePct cfg) (timeWindowHours cfg) nowMs ev
          (msgF x) = false) →
      candidateHit (amountTolerancePct cfg) (timeWindowHours cfg) nowMs ev (msgF mid)
        = true →
      scanCandidates (amountTolerancePct cfg) (timeWindowHours cfg)
          (fun x => .ok (msgF x)) nowMs ev (pre ++ mid :: post)
        = .ok (validerResult (msgF mid))) := by
  refine ⟨fun stubs => ?_, scanCandidates_no_hit _ _ _ _ _,
    scanCandidates_first_hit _ _ _ _ _⟩
  obtain ⟨r, hr⟩ := scanCandidates_total (amountTolerancePct cfg) (timeWindowHours cfg)
    msgF nowMs ev (stubs.take 50)
  refine ⟨r, hr, ?_⟩
  unfold verify_against_inbox verifyOnce list_messages
  dsimp only
  rw [hr]

/-- C3, witness: the first candidate does not hit, the second does; the scan
returns the second candidate's `VALIDER` result. -/
theorem C3_first_match_witness :
    scanCandidates (amountTolerancePct defaultCfg) (timeWindowHours defaultCfg)
        (fun x => .ok (twoMsgFetch x)) 1700000000000 txEvidence (["m1"] ++ "m2" :: [])
      = .ok (validerResult (twoMsgFetch "m2")) :=
  (C3_first_match defaultCfg twoMsgFetch 1700000000000 txEvidence).2.2 ["m1"] "m2" []
    (by decide) (by decide)

/-! ## C8 — the time window -/

/-- Messages outside the window never influence the scan: filtering them out
beforehand leaves the outcome unchanged. -/
theorem scanCandidates_skips_stale (tolPct : Dec) (wh : Int)
    (msgF : String → GMessage) (nowMs : Int) (ev : Evidence) :
    ∀ stubs, scanCandidates tolPct wh (fun mid => .ok (msgF mid)) nowMs ev stubs
      = scanCandidates tolPct wh (fun mid => .ok (msgF mid)) nowMs ev
          (stubs.filter fun mid => _within_time_window wh nowMs (msgF mid).internalDate) := by
  intro stubs
  induction stubs with
  | nil => rfl
  | cons mid rest ih =>
    by_cases hw : _within_time_window wh nowMs (msgF mid).internalDate = true
    · have hfc : (mid :: rest).filter
          (fun x => _within_time_window wh nowMs (msgF x).internalDate)
          = mid :: rest.filter
              (fun x => _within_time_window wh nowMs (msgF x).internalDate) := by
        simp [List.filter_cons, hw]
      rw [hfc]
      simp only [scanCandidates]
      rw [if_pos hw, if_pos hw]
      cases hm : _message_matches tolPct (msgF mid) ev with
      | mk fst snd =>
        cases fst
        · exact ih
        · rfl
    · have hfc : (mid :: rest).filter
          (fun x => _within_time_window wh nowMs (msgF x).internalDate)
          = rest.filter
              (fun x => _within_time_window wh nowMs (msgF x).internalDate) := by
        simp only [List.filter_cons]
        rw [if_neg (by simpa using hw)]
      rw [hfc]
      simp only [scanCandidates]
      rw [if_neg hw]
      exact ih

/-- C8: a candidate is admitted exactly when its UTC timestamp is at least
"now minus the configured window" — the very seconds-level comparison the
source performs — the boundary being inclusive at exactly `window_hours` of
age and exclusive one millisecond older; stale candidates are skipped before
the matching engine ever sees them. -/
theorem C8_time_window (wh nowMs ms : Int) (tolPct : Dec) (ev : Evidence)
    (msgF : String → GMessage) (stubs : List String) :
    (_within_time_window wh nowMs ms = true ↔
      (nowMs : ℚ) / 1000 - wh * 3600 ≤ (ms : ℚ) / 1000) ∧
    _within_time_window wh nowMs (nowMs - wh * 3600000) = true ∧
    _within_time_window wh nowMs (nowMs - wh * 3600000 - 1) = false ∧
    scanCandidates tolPct wh (fun mid => .ok (msgF mid)) nowMs ev stubs
      = scanCandidates tolPct wh (fun mid => .ok (msgF mid)) nowMs ev
          (stubs.filter fun mid => _within_time_window wh nowMs (msgF mid).internalDate) := by
  refine ⟨within_time_window_iff_seconds wh nowMs ms, ?_, ?_,
    scanCandidates_skips_stale tolPct wh msgF nowMs ev stubs⟩
  · simp [_within_time_window]
  · simp only [_within_time_window, decide_eq_false_iff_not]
    omega

/-! ## C4 — amount normalization -/

/-- C4, counterexample.  The claim says group-separator characters are
stripped before parsing, so that a dot-grouped token such as "1.000" yields
1000.  The code strips only the two space separators and rewrites commas to
dots (src/payment_verifier.py:57), so "1.000" is parsed as the decimal
1.000, i.e. the value 1 — not 1000. -/
theorem C4_counterexample :
    _parse_amounts "1.000" = [⟨1000, 3⟩] ∧
    parse_amount_values "1.000" = [1] ∧ (1 : ℚ) ≠ 1000 := by
  have h : _parse_amounts "1.000" = [⟨1000, 3⟩] := by decide
  refine ⟨h, ?_, by norm_num⟩
  unfold parse_amount_values
  rw [h]
  norm_num [Dec.toRat]

/-- C4, amended.  The parser extracts each token of the grammar and
normalizes it by stripping only the space group-separators (space and narrow
no-break space) and rewriting every comma as a dot; the result is then parsed
as a decimal, and tokens that fail to parse — such as multi-group dot- or
comma-grouped forms — are silently dropped.  Hence "1 000" yields 1000 but
"1.000" yields 1 (a decimal point), "50,00" yields 50, "1.234.567" is
dropped, and a currency marker is ignored. -/
theorem C4_amended_normalization :
    parse_amount_values "1 000" = [1000] ∧
    parse_amount_values "1.000" = [1] ∧
    parse_amount_values "50,00" = [50] ∧
    parse_amount_values "1.234.567" = [] ∧
    parse_amount_values "50 FCFA" = [50] ∧
    normalizeTok "1 000".data = "1000".data ∧
    normalizeTok "1.000".data = "1.000".data ∧
    normalizeTok "50,00".data = "50.00".data := by
  have h1 : _parse_amounts "1 000" = [⟨1000, 0⟩] := by decide
  have h2 : _parse_amounts "1.000" = [⟨1000, 3⟩] := by decide
  have h3 : _parse_amounts "50,00" = [⟨5000, 2⟩] := by decide
  have h4 : _parse_amounts "1.234.567" = [] := by decide
  have h5 : _parse_amounts "50 FCFA" = [⟨50, 0⟩] := by decide
  refine ⟨?_, ?_, ?_, ?_, ?_, by decide, by decide, by decide⟩ <;>
    unfold parse_amount_values
  · rw [h1]; norm_num [Dec.toRat]
  · rw [h2]; norm_num [Dec.toRat]
  · rw [h3]; norm_num [Dec.toRat]
  · rw [h4]; rfl
  · rw [h5]; norm_num [Dec.toRat]

/-! ## C9 — transaction-identifier extraction -/

theorem dedupKeepFirst_sublist : ∀ (l seen : List String),
    (dedupKeepFirst seen l).Sublist l := by
  intro l
  induction l with
  | nil => intro seen; simp [dedupKeepFirst]
  | cons x t ih =>
    intro seen
    unfold dedupKeepFirst
    by_cases hx : x ∈ seen
    · rw [if_pos hx]
      exact (ih seen).cons x
    · rw [if_neg hx]
      exact (ih (x :: seen)).cons₂ x

theorem dedupKeepFirst_not_mem : ∀ (l seen : List String) (x : String),
    x ∈ dedupKeepFirst seen l → x ∉ seen := by
  intro l
  induction l with
  | nil => intro seen x hx; simp [dedupKeepFirst] at hx
  | cons y t ih =>
    intro seen x hx
    unfold dedupKeepFirst at hx
    by_cases hy : y ∈ seen
    · rw [if_pos hy] at hx
      exact ih seen x hx
    · rw [if_neg hy] at hx
      rcases List.mem_cons.1 hx with rfl | hx'
      · exact hy
      · intro hs
        exact ih (y :: seen) x hx' (List.mem_cons_of_mem y hs)

theorem dedupKeepFirst_nodup : ∀ (l seen : List String),
    (dedupKeepFirst seen l).Nodup := by
  intro l
  induction l with
  | nil => intro seen; simp [dedupKeepFirst]
  | cons y t ih =>
    intro seen
    unfold dedupKeepFirst
    by_cases hy : y ∈ seen
    · rw [if_pos hy]; exact ih seen
    · rw [if_neg hy]
      refine List.nodup_cons.2 ⟨?_, ih (y :: seen)⟩
      intro hmem
      exact dedupKeepFirst_not_mem t (y :: seen) y hmem (List.mem_cons_self y seen)

/-- C9: identifiers are the whole-word alphanumeric tokens of length 6 to 20,
in order of appearance, deduplicated keeping first occurrences; in
particular "AB1234 AB1234 CD5678" parses to ["AB1234", "CD5678"]. -/
theorem C9_tx_id_parsing :
    _parse_tx_ids "AB1234 AB1234 CD5678" = ["AB1234", "CD5678"] ∧
    ∀ text : String, (_parse_tx_ids text).Nodup ∧
      (_parse_tx_ids text).Sublist (rawTxTokens text) ∧
      ∀ t ∈ _parse_tx_ids text, 6 ≤ t.length ∧ t.length ≤ 20 ∧
        t.data.all Char.isAlphanum = true := by
  refine ⟨by decide, fun text => ⟨dedupKeepFirst_nodup _ _, dedupKeepFirst_sublist _ _, ?_⟩⟩
  intro t ht
  have ht' : t ∈ rawTxTokens text := (dedupKeepFirst_sublist _ _).subset ht
  unfold rawTxTokens at ht'
  rcases List.mem_map.1 ht' with ⟨w, hw, rfl⟩
  have hwtok : isTxToken w = true := (List.mem_filter.1 hw).2
  unfold isTxToken at hwtok
  rcases Bool.and_eq_true_iff.1 hwtok with ⟨h12, h3⟩
  rcases Bool.and_eq_true_iff.1 h12 with ⟨hall, h6⟩
  refine ⟨?_, ?_, ?_⟩
  · simpa [String.length] using of_decide_eq_true h6
  · simpa [String.length] using of_decide_eq_true h3
  · simpa using hall

/-- C9, witness: the membership requirements checked on a concrete parse. -/
theorem C9_tx_id_parsing_witness :
    6 ≤ ("AB1234" : String).length ∧ ("AB1234" : String).length ≤ 20 ∧
      ("AB1234" : String).data.all Char.isAlphanum = true :=
  (C9_tx_id_parsing.2 "AB1234 AB1234 CD5678").2.2 "AB1234" (by decide)

/-! ## C6 — choice parsing

`containsWordCI` is related to a declarative notion of whole-word occurrence
so that the precedence statement is about occurrences in the text, not about
the scanner itself. -/

/-- The word-boundary condition to the left of a candidate match: the text
so far is empty (and the scan may match at the very start) or ends in a
non-word character. -/
def leftBoundary (prevOk : Bool) (a : List Char) : Bool :=
  match a.getLast? with
  | none => prevOk
  | some c => !isWordChar c

/-- `pat` (a word made of word characters) occurs in `s` up to ASCII case,
delimited by word boundaries on both sides. -/
def WordOccurs (pat s : List Char) : Prop :=
  ∃ a mid b, s = a ++ mid ++ b ∧
    mid.map Char.toLower = pat.map Char.toLower ∧
    leftBoundary true a = true ∧ boundaryOk b = true

theorem leftBoundary_cons (prevOk : Bool) (c : Char) (a : List Char) :
    leftBoundary prevOk (c :: a) = leftBoundary (!isWordChar c) a := by
  cases a with
  | nil => rfl
  | cons d t =>
    cases h : (d :: t).getLast? with
    | none => simp at h
    | some x =>
      unfold leftBoundary
      rw [List.getLast?_cons_cons, h]

theorem matchCIRest_append (pat mid b : List Char)
    (h : mid.map Char.toLower = pat.map Char.toLower) :
    matchCIRest pat (mid ++ b) = some b := by
  induction pat generalizing mid with
  | nil =>
    cases mid with
    | nil => rfl
    | cons c t => simp at h
  | cons p pt ih =>
    cases mid with
    | nil => simp at h
    | cons c ct =>
      simp only [List.map_cons, List.cons.injEq] at h
      simp only [List.cons_append, matchCIRest]
      rw [if_pos h.1]
      exact ih ct h.2

theorem matchCIRest_some (pat : List Char) :
    ∀ s r, matchCIRest pat s = some r →
      ∃ mid, s = mid ++ r ∧ mid.map Char.toLower = pat.map Char.toLower := by
  induction pat with
  | nil =>
    intro s r h
    simp only [matchCIRest, Option.some.injEq] at h
    exact ⟨[], by simp [h], by simp⟩
  | cons p pt ih =>
    intro s r h
    cases s with
    | nil => simp [matchCIRest] at h
    | cons c ct =>
      unfold matchCIRest at h
      by_cases hc : c.toLower = p.toLower
      · rw [if_pos hc] at h
        obtain ⟨mid, heq, hci⟩ := ih ct r h
        exact ⟨c :: mid, by simp [heq], by simp [hci, hc]⟩
      · rw [if_neg hc] at h
        simp at h

theorem wordHitAt_iff (pat s : List Char) :
    wordHitAt pat s = true ↔
      ∃ mid b, s = mid ++ b ∧ mid.map Char.toLower = pat.map Char.toLower ∧
        boundaryOk b = true := by
  unfold wordHitAt
  cases h : matchCIRest pat s with
  | none =>
    constructor
    · intro hf; simp at hf
    · rintro ⟨mid, b, rfl, hci, hb⟩
      rw [matchCIRest_append pat mid b hci] at h
      simp at h
  | some r =>
    constructor
    · intro hb
      obtain ⟨mid, heq, hci⟩ := matchCIRest_some pat s r h
      exact ⟨mid, r, heq, hci, hb⟩
    · rintro ⟨mid, b, rfl, hci, hb⟩
      rw [matchCIRest_append pat mid b hci] at h
      injection h with hbr
      rw [hbr] at hb
      exact hb

theorem containsWordAux_iff (pat : List Char) :
    ∀ s prevOk, containsWordAux pat prevOk s = true ↔
      ∃ a mid b, s = a ++ mid ++ b ∧
        mid.map Char.toLower = pat.map Char.toLower ∧
        leftBoundary prevOk a = true ∧ boundaryOk b = true := by
  intro s
  induction s with
  | nil =>
    intro prevOk
    simp only [containsWordAux, Bool.and_eq_true_iff]
    constructor
    · rintro ⟨hp, hw⟩
      obtain ⟨mid, b, heq, hci, hb⟩ := (wordHitAt_iff pat []).1 hw
      obtain ⟨hmid, hbnil⟩ := List.append_eq_nil.1 heq.symm
      exact ⟨[], mid, b, by simp [hmid, hbnil], hci, hp, hb⟩
    · rintro ⟨a, mid, b, heq, hci, hl, hb⟩
      obtain ⟨ha2, hbnil⟩ := List.append_eq_nil.1 heq.symm
      obtain ⟨hanil, hmid⟩ := List.append_eq_nil.1 ha2
      refine ⟨by rwa [hanil] at hl, ?_⟩
      exact (wordHitAt_iff pat []).2 ⟨mid, b, by simp [hmid, hbnil], hci, hb⟩
  | cons c t ih =>
    intro prevOk
    simp only [containsWordAux, Bool.or_eq_true_iff, Bool.and_eq_true_iff]
    constructor
    · rintro (⟨hp, hw⟩ | hrec)
      · obtain ⟨mid, b, heq, hci, hb⟩ := (wordHitAt_iff pat (c :: t)).1 hw
        exact ⟨[], mid, b, by simpa using heq, hci, by simpa [leftBoundary] using hp, hb⟩
      · obtain ⟨a, mid, b, heq, hci, hl, hb⟩ := (ih (!isWordChar c)).1 hrec
        exact ⟨c :: a, mid, b, by simp [heq], hci, by rwa [leftBoundary_cons], hb⟩
    · rintro ⟨a, mid, b, heq, hci, hl, hb⟩
      cases a with
      | nil =>
        left
        refine ⟨by simpa [leftBoundary] using hl, ?_⟩
        exact (wordHitAt_iff pat (c :: t)).2 ⟨mid, b, by simpa using heq, hci, hb⟩
      | cons a0 a' =>
        right
        simp only [List.cons_append, List.cons.injEq] at heq
        obtain ⟨rfl, ht⟩ := heq
        rw [leftBoundary_cons] at hl
        exact (ih (!isWordChar c)).2 ⟨a', mid, b, ht, hci, hl, hb⟩

theorem containsWordCI_iff (pat s : List Char) :
    containsWordCI pat s = true ↔ WordOccurs pat s :=
  containsWordAux_iff pat s true

/-- C6: whenever "valider" occurs as a whole word (case-insensitively) the
choice is `valider` — also when "refuser" occurs too; `refuser` is returned
only when "valider" is absent and "refuser" occurs; otherwise no choice. -/
theorem C6_choice_precedence :
    (∀ text : String,
      (WordOccurs validerChars text.data → _parse_choice text = some "valider") ∧
      (¬ WordOccurs validerChars text.data → WordOccurs refuserChars text.data →
        _parse_choice text = some "refuser") ∧
      (¬ WordOccurs validerChars text.data → ¬ WordOccurs refuserChars text.data →
        _parse_choice text = none)) ∧
    _parse_choice "merci de valider et refuser" = some "valider" := by
  refine ⟨fun text => ?_, by decide⟩
  unfold _parse_choice
  refine ⟨fun hv => ?_, fun hnv hr => ?_, fun hnv hnr => ?_⟩
  · rw [if_pos ((containsWordCI_iff validerChars text.data).2 hv)]
  · have hvf : containsWordCI validerChars text.data = false := by
      cases h : containsWordCI validerChars text.data
      · rfl
      · exact absurd ((containsWordCI_iff _ _).1 h) hnv
    rw [if_neg (by simp [hvf]), if_pos ((containsWordCI_iff _ _).2 hr)]
  · have hvf : containsWordCI validerChars text.data = false := by
      cases h : containsWordCI validerChars text.data
      · rfl
      · exact absurd ((containsWordCI_iff _ _).1 h) hnv
    have hrf : containsWordCI refuserChars text.data = false := by
      cases h : containsWordCI refuserChars text.data
      · rfl
      · exact absurd ((containsWordCI_iff _ _).1 h) hnr
    rw [if_neg (by simp [hvf]), if_neg (by simp [hrf])]

/-- C6, witness: a text containing both words parses to `valider`. -/
theorem C6_choice_precedence_witness :
    _parse_choice "valider et refuser svp" = some "valider" :=
  (C6_choice_precedence.1 "valider et refuser svp").1
    ⟨[], validerChars, ' ' :: "et refuser svp".data, by decide, by decide, by decide,
      by decide⟩

/-- C8, witness: the inclusive boundary evaluated at a concrete clock. -/
theorem C8_time_window_witness :
    _within_time_window 168 1700000000000 (1700000000000 - 168 * 3600000) = true ∧
    _within_time_window 168 1700000000000 (1700000000000 - 168 * 3600000 - 1) = false :=
  ⟨(C8_time_window 168 1700000000000 0 ⟨1, 0⟩ ⟨none, none, none, none, ""⟩
      (fun _ => plainMsg) []).2.1,
    (C8_time_window 168 1700000000000 0 ⟨1, 0⟩ ⟨none, none, none, none, ""⟩
      (fun _ => plainMsg) []).2.2.1⟩
